import Mathlib

/-!
# ReadBufferFromPocoSocket

A shallow embedding of `src/IO/ReadBufferFromPocoSocket.cpp`: the refill
operation `nextImpl`, the constructor and the readiness check `poll`.

The socket, the cooperative-yield hook, the stopwatch and the profile counter
are collaborators of the reader.  Their answers come from an `Environment`,
and every call the reader makes on them is recorded, in order, in a trace of
`Event`s.  The `while` loop of `nextImpl` need not terminate, so the embedding
of `nextImpl` takes a bound on the number of loop tests and answers `none`
when the bound is used up.

Two implicit conversions of the source are part of the embedding: the `size_t`
capacity becomes the `int length` of `receiveBytes` (line 47), and the `size_t`
timeout of `poll` becomes a `Poco::Timespan` (line 86).  So is the
`dynamic_cast` of line 45, which throws when a secure socket is no
`StreamSocket`.
-/

namespace DB

/-! ## Values exchanged with the collaborators -/

/-- A `Poco::Timespan`, counted in microseconds. -/
abbrev Timespan := Int

/-- One byte of buffer memory. -/
abbrev Byte := Fin 256

/-- Conversion of a `size_t` to `int`, as at line 47 where
`internal_buffer.size()` becomes the `int length` of `receiveBytes`: the low 32
bits, read as a signed number. -/
def narrowToInt (n : Nat) : Int :=
  if n % 2 ^ 32 < 2 ^ 31 then ((n % 2 ^ 32 : Nat) : Int)
  else ((n % 2 ^ 32 : Nat) : Int) - 2 ^ 32

/-- Conversion of a `size_t` to `Poco::Timespan`, as at line 86 where
`timeout_microseconds` becomes the timeout of `socket.poll`: a `Timespan` is
built from a signed 64-bit count of microseconds, so the 64 bits of the
`size_t` are read as a signed number. -/
def toTimespan (n : Nat) : Timespan :=
  if n % 2 ^ 64 < 2 ^ 63 then ((n % 2 ^ 64 : Nat) : Int)
  else ((n % 2 ^ 64 : Nat) : Int) - 2 ^ 64

/-- The bit `Poco::Net::Socket::SELECT_READ` of a poll mode. -/
def SELECT_READ : Nat := 1

/-- The bit `Poco::Net::Socket::SELECT_ERROR` of a poll mode. -/
def SELECT_ERROR : Nat := 4

/-- Modelled from the spec: the three error codes are declared
`extern const int` in lines 18-23 and defined outside the source file; the spec
names them as three separately identifiable error kinds (`NetworkFault`,
`TimeoutFault`, `ReadFault`).  The embedding keeps the code names. -/
inductive ErrorCode
  | NETWORK_ERROR
  | SOCKET_TIMEOUT
  | CANNOT_READ_FROM_SOCKET
  deriving DecidableEq, Repr

/-- Where the dynamic type of an exception thrown by a collaborator stands with
respect to the three `catch` clauses of `nextImpl` (lines 49, 53, 57).
`Poco::Net::NetException` derives from `Poco::IOException`;
`Poco::TimeoutException` derives from neither. -/
inductive PocoKind
  /-- `Poco::Net::NetException` or a class derived from it. -/
  | netException
  /-- `Poco::TimeoutException` or a class derived from it. -/
  | timeoutException
  /-- `Poco::IOException` or a class derived from it, not a `NetException`. -/
  | ioException
  /-- Anything else: no `catch` clause of `nextImpl` matches it. -/
  | other
  deriving DecidableEq, Repr

/-- An exception that `nextImpl` has not built itself: one thrown by the
socket or by the hook, or the `std::bad_cast` of a failed cast. -/
structure ForeignException where
  kind : PocoKind
  displayText : String
  deriving DecidableEq, Repr

/-- The `std::bad_cast` that `dynamic_cast<Poco::Net::StreamSocket &>` throws
when the socket is no `StreamSocket`; no `catch` clause of `nextImpl` matches
it. -/
def bad_cast : ForeignException := { kind := .other, displayText := "std::bad_cast" }

/-- How a call on a collaborator, or a step that may throw, ends. -/
inductive Answer (α : Type)
  | returned (value : α)
  | threw (e : ForeignException)
  deriving DecidableEq, Repr

/-- What a `receiveBytes` call that returns has done: the value it returned and
the bytes it stored from the start of the destination. -/
structure Received where
  count : Int
  bytes : List Byte
  deriving DecidableEq, Repr

/-- The collaborators of one call of the reader.  The index `k` of `poll` and
`async_callback` is the number of earlier calls of the same kind within the
call of the reader. -/
structure Environment where
  /-- Answer of `socket.poll(timeout, mode)`. -/
  poll : (k : Nat) → (timeout : Timespan) → (mode : Nat) → Answer Bool
  /-- Answer of the hook called with descriptor, timeout and description. -/
  async_callback : (k : Nat) → (sockfd : Int) → (timeout : Timespan) →
    (description : String) → Answer Unit
  /-- Answer of `socket.impl()->receiveBytes(buffer, length)`, `length` being
  the `int` that the call receives; the answer may depend on the send and
  receive timeouts in force on the socket. -/
  receiveBytes : (length : Int) → (send_timeout receive_timeout : Timespan) →
    Answer Received
  /-- Reading of the stopwatch `watch` at line 66. -/
  elapsedMicroseconds : Nat

/-- A call made by the reader on one of its collaborators. -/
inductive Event
  /-- The call `socket.poll(timeout, mode)`. -/
  | poll (timeout : Timespan) (mode : Nat)
  /-- The call of the cooperative-yield hook. -/
  | async_callback (sockfd : Int) (timeout : Timespan) (description : String)
  /-- The call `receiveBytes(buffer, length)`, the destination given as an
  offset into the memory of the reader and `length` as the `int` that the call
  receives, with the timeouts of the socket at the time of the call. -/
  | receiveBytes (buffer : Nat) (length : Int) (send_timeout receive_timeout : Timespan)
  /-- The call `ProfileEvents::increment(NetworkReceiveElapsedMicroseconds, amount)`. -/
  | increment (amount : Nat)
  deriving DecidableEq, Repr

/-! ## State of the reader -/

/-- Modelled from the spec: `BufferBase::Buffer` is declared in a header
outside the source file.  A buffer is a window `[begin_pos, end_pos)` over the
memory of the reader; positions are offsets from the start of that memory. -/
structure Buffer where
  begin_pos : Nat
  end_pos : Nat
  deriving DecidableEq, Repr

/-- Length `end_pos - begin_pos` of the window. -/
def Buffer.size (b : Buffer) : Nat := b.end_pos - b.begin_pos

/-- Modelled from the spec: `Buffer::resize` is declared outside the source
file; it keeps the start of the window and sets its length. -/
def Buffer.resize (b : Buffer) (size : Nat) : Buffer :=
  { b with end_pos := b.begin_pos + size }

/-- The part of a `Poco::Net::Socket` that the reader looks at. -/
structure Socket where
  /-- Value of `impl()->sockfd()`. -/
  sockfd : Int
  /-- Value of `secure()`. -/
  secure : Bool
  /-- Whether the socket object is a `Poco::Net::StreamSocket`, that is whether
  `dynamic_cast<Poco::Net::StreamSocket &>(socket)` succeeds. -/
  is_stream_socket : Bool
  /-- Value of `getSendTimeout()`. -/
  send_timeout : Timespan
  /-- Value of `getReceiveTimeout()`. -/
  receive_timeout : Timespan
  deriving DecidableEq, Repr

/-- The reader.  `memory` is the region owned by `BufferWithOwnMemory`;
`internal_buffer` spans all of it. -/
structure ReadBufferFromPocoSocket where
  memory : List Byte
  working_buffer : Buffer
  /-- Read cursor of `ReadBuffer`, an offset into `memory`. -/
  pos : Nat
  socket : Socket
  /-- Text of `peer_address.toString()`. -/
  peer_address : String
  socket_description : String
  /-- Whether the hook `async_callback` holds a callable. -/
  async_callback : Bool
  deriving DecidableEq, Repr

/-- The full allocated region: it starts at offset 0 and spans the memory. -/
def ReadBufferFromPocoSocket.internal_buffer (s : ReadBufferFromPocoSocket) : Buffer :=
  { begin_pos := 0, end_pos := s.memory.length }

/-- The bytes of the valid window `working_buffer`. -/
def ReadBufferFromPocoSocket.window (s : ReadBufferFromPocoSocket) : List Byte :=
  (s.memory.drop s.working_buffer.begin_pos).take s.working_buffer.size

/-- Modelled from the spec: `ReadBuffer::available()` is declared outside the
source file; it is the `size_t` difference `working_buffer.end() - pos`, the
number of buffered bytes not yet consumed. -/
def ReadBufferFromPocoSocket.available (s : ReadBufferFromPocoSocket) : Nat :=
  (((s.working_buffer.end_pos : Int) - (s.pos : Int)) % 2 ^ 64).toNat

/-- Memory after `bytes` were stored from offset 0.  Bytes stored past the end
of the memory of the reader are not part of the state. -/
def store (memory : List Byte) (bytes : List Byte) : List Byte :=
  bytes.take memory.length ++ memory.drop bytes.length

/-! ## TimeoutSetter -/

/-- Modelled from the spec: `TimeoutSetter` (`IO/TimeoutSetter.h`) is outside
the source file.  It is the scoped guard of the spec, which captures the prior
send and receive timeouts on entry and restores them on every exit path. -/
structure TimeoutSetter where
  old_send_timeout : Timespan
  old_receive_timeout : Timespan
  deriving DecidableEq, Repr

/-- Modelled from the spec: the constructor of `TimeoutSetter` (outside the
source file) records the prior timeouts of the socket and forces the send and
receive timeouts to the two values given. -/
def TimeoutSetter.acquire (socket : Socket) (send_timeout receive_timeout : Timespan) :
    TimeoutSetter × Socket :=
  ({ old_send_timeout := socket.send_timeout, old_receive_timeout := socket.receive_timeout },
   { socket with send_timeout := send_timeout, receive_timeout := receive_timeout })

/-- Modelled from the spec: the destructor of `TimeoutSetter` (outside the
source file) puts the recorded timeouts back. -/
def TimeoutSetter.release (t : TimeoutSetter) (socket : Socket) : Socket :=
  { socket with send_timeout := t.old_send_timeout, receive_timeout := t.old_receive_timeout }

/-! ## nextImpl -/

/-- What `nextImpl` throws. -/
inductive Thrown
  /-- A `DB::NetException` built by `nextImpl` with a message and a code. -/
  | NetException (message : String) (code : ErrorCode)
  /-- An exception that no `catch` clause matched: one of a collaborator, or
  the `std::bad_cast` of line 45. -/
  | propagated (e : ForeignException)
  deriving DecidableEq, Repr

/-- How a call of the reader ends. -/
inductive Result (α : Type)
  | returned (value : α)
  | threw (e : Thrown)
  deriving DecidableEq, Repr

/-- A finished call of the reader: how it ended, the reader afterwards and the
calls made on the collaborators, oldest first. -/
structure Outcome (α : Type) where
  result : Result α
  state : ReadBufferFromPocoSocket
  trace : List Event

/-- The poll of line 37: `socket.poll(0, Poco::Net::Socket::SELECT_READ)`. -/
def loopPoll : Event := Event.poll 0 SELECT_READ

/-- The hook call of line 38. -/
def loopCallback (s : ReadBufferFromPocoSocket) : Event :=
  Event.async_callback s.socket.sockfd s.socket.receive_timeout s.socket_description

/-- Lines 37-38, the loop
`while (async_callback && !socket.poll(0, SELECT_READ)) async_callback(...)`.
The first argument bounds the number of tests of the loop condition, `k` is
the number of tests already made.  The answer is how the loop ended (left
normally, or left by an exception of the poll or of the hook) and its calls. -/
def waitLoop (env : Environment) (s : ReadBufferFromPocoSocket) :
    Nat → Nat → Option (Answer Unit × List Event)
  | 0, _ => none
  | fuel + 1, k =>
    if s.async_callback then
      match env.poll k 0 SELECT_READ with
      | .threw e => some (.threw e, [loopPoll])
      | .returned true => some (.returned (), [loopPoll])
      | .returned false =>
        match env.async_callback k s.socket.sockfd s.socket.receive_timeout
            s.socket_description with
        | .threw e => some (.threw e, [loopPoll, loopCallback s])
        | .returned () =>
          match waitLoop env s fuel (k + 1) with
          | none => none
          | some (a, tr) => some (a, loopPoll :: loopCallback s :: tr)
    else some (.returned (), [])

/-- Lines 43-45: the guard and the socket as `receiveBytes` finds it.  For a
secure socket the `dynamic_cast` to `StreamSocket` throws `std::bad_cast` when
the socket is no `StreamSocket`; otherwise a `TimeoutSetter` sets both timeouts
to `socket.getReceiveTimeout()`.  A socket that is not secure gets no guard. -/
def guardedSocket (s : ReadBufferFromPocoSocket) : Answer (Option TimeoutSetter × Socket) :=
  if s.socket.secure then
    if s.socket.is_stream_socket then
      let g := TimeoutSetter.acquire s.socket s.socket.receive_timeout s.socket.receive_timeout
      .returned (some g.1, g.2)
    else .threw bad_cast
  else .returned (none, s.socket)

/-- The arguments of a `receiveBytes` call and the timeouts of the socket at
the time of the call. -/
structure ReceiveCall where
  buffer : Nat
  length : Int
  send_timeout : Timespan
  receive_timeout : Timespan
  deriving DecidableEq, Repr

/-- The call of line 47 on the socket as lines 43-45 left it:
`socket.impl()->receiveBytes(internal_buffer.begin(), internal_buffer.size())`,
the size converted to the `int length` of `receiveBytes`. -/
def receiveCall (s : ReadBufferFromPocoSocket) (socket : Socket) : ReceiveCall :=
  { buffer := s.internal_buffer.begin_pos,
    length := narrowToInt s.internal_buffer.size,
    send_timeout := socket.send_timeout,
    receive_timeout := socket.receive_timeout }

/-- A call as recorded in the trace. -/
def ReceiveCall.event (c : ReceiveCall) : Event :=
  Event.receiveBytes c.buffer c.length c.send_timeout c.receive_timeout

/-- The answer of the socket to a call. -/
def ReceiveCall.answer (c : ReceiveCall) (env : Environment) : Answer Received :=
  env.receiveBytes c.length c.send_timeout c.receive_timeout

/-- End of the scope of `timeout_setter` (line 48, or unwinding out of the
`try` block): the guard, when there is one, is released. -/
def releaseGuard (g : Option TimeoutSetter × Socket) : Socket :=
  match g.1 with
  | some t => t.release g.2
  | none => g.2

/-- Lines 43-48: guard, `receiveBytes`, release.  The answer is `bytes_read` or
the exception, with the reader afterwards and the `receiveBytes` call made, if
any: a failed cast at line 45 throws before any call and changes nothing. -/
def guardedReceive (env : Environment) (s : ReadBufferFromPocoSocket) :
    Answer Int × ReadBufferFromPocoSocket × List Event :=
  match guardedSocket s with
  | .threw e => (.threw e, s, [])
  | .returned g =>
    match (receiveCall s g.2).answer env with
    | .threw e => (.threw e, { s with socket := releaseGuard g }, [(receiveCall s g.2).event])
    | .returned r =>
      (.returned r.count,
       { s with memory := store s.memory r.bytes, socket := releaseGuard g },
       [(receiveCall s g.2).event])

/-- Lines 49-60: the `catch` clauses, tried in the order of the source. -/
def translate (s : ReadBufferFromPocoSocket) (e : ForeignException) : Thrown :=
  match e.kind with
  | .netException =>
    .NetException (e.displayText ++ ", while reading from socket (" ++ s.peer_address ++ ")")
      .NETWORK_ERROR
  | .timeoutException =>
    .NetException ("Timeout exceeded while reading from socket (" ++ s.peer_address ++ ")")
      .SOCKET_TIMEOUT
  | .ioException =>
    .NetException (e.displayText ++ ", while reading from socket (" ++ s.peer_address ++ ")")
      .NETWORK_ERROR
  | .other => .propagated e

/-- Lines 62-73: what follows the `try` block once `bytes_read` is known. -/
def complete (env : Environment) (s : ReadBufferFromPocoSocket) (bytes_read : Int)
    (tr : List Event) : Outcome Bool :=
  if bytes_read < 0 then
    { result := .threw (.NetException ("Cannot read from socket (" ++ s.peer_address ++ ")")
        .CANNOT_READ_FROM_SOCKET),
      state := s, trace := tr }
  else
    if bytes_read ≠ 0 then
      { result := .returned true,
        state := { s with working_buffer := s.working_buffer.resize bytes_read.toNat },
        trace := tr ++ [Event.increment env.elapsedMicroseconds] }
    else
      { result := .returned false, state := s,
        trace := tr ++ [Event.increment env.elapsedMicroseconds] }

/-- Lines 43-73: what `nextImpl` does once the loop of line 37 is left
normally, `tr` being the calls made by the loop. -/
def receiveAndComplete (env : Environment) (s : ReadBufferFromPocoSocket)
    (tr : List Event) : Outcome Bool :=
  match guardedReceive env s with
  | (.threw e, s1, calls) =>
    { result := .threw (translate s1 e), state := s1, trace := tr ++ calls }
  | (.returned bytes_read, s1, calls) => complete env s1 bytes_read (tr ++ calls)

/-- The method `ReadBufferFromPocoSocket::nextImpl` (lines 26-74).  The first
argument bounds the number of tests of the loop condition of line 37. -/
def nextImpl (fuel : Nat) (env : Environment) (s : ReadBufferFromPocoSocket) :
    Option (Outcome Bool) :=
  match waitLoop env s fuel 0 with
  | none => none
  | some (.threw e, tr) => some { result := .threw (translate s e), state := s, trace := tr }
  | some (.returned (), tr) => some (receiveAndComplete env s tr)

/-! ## Constructor and poll -/

/-- The constructor (lines 76-82).  `BufferWithOwnMemory<ReadBuffer>(buf_size)`
allocates `buf_size` bytes of memory, whose content is not specified (zeros
here), and leaves the valid window empty at the start of it; `peer` is the text
of `socket.peerAddress()`.  No hook is installed. -/
def ReadBufferFromPocoSocket.create (socket_ : Socket) (peer : String) (buf_size : Nat) :
    ReadBufferFromPocoSocket :=
  { memory := List.replicate buf_size 0,
    working_buffer := { begin_pos := 0, end_pos := 0 },
    pos := 0,
    socket := socket_,
    peer_address := peer,
    socket_description := "socket (" ++ peer ++ ")",
    async_callback := false }

/-- The method `ReadBufferFromPocoSocket::poll` (lines 84-87):
`available() || socket.poll(timeout_microseconds, SELECT_READ | SELECT_ERROR)`.
The `size_t` argument `timeout_microseconds` is converted to the
`Poco::Timespan` that `socket.poll` takes.  The reader is not changed (the
method is `const`). -/
def poll (env : Environment) (s : ReadBufferFromPocoSocket) (timeout_microseconds : Nat) :
    Result Bool × List Event :=
  if s.available ≠ 0 then (.returned true, [])
  else
    match env.poll 0 (toTimespan timeout_microseconds) (SELECT_READ ||| SELECT_ERROR) with
    | .returned b =>
      (.returned b, [Event.poll (toTimespan timeout_microseconds) (SELECT_READ ||| SELECT_ERROR)])
    | .threw e =>
      (.threw (.propagated e),
       [Event.poll (toTimespan timeout_microseconds) (SELECT_READ ||| SELECT_ERROR)])

/-! ## Vocabulary of the statements -/

/-- The calls made by the loop of lines 37-38 when the hook is called `n` times
before the loop is left: poll, hook, poll, hook, ..., poll. -/
def waitTrace (s : ReadBufferFromPocoSocket) : Nat → List Event
  | 0 => [loopPoll]
  | n + 1 => loopPoll :: loopCallback s :: waitTrace s n

/-- The calls made by the loop of lines 37-38 when it is left normally after
`N` hook calls; without a hook the loop makes no call. -/
def loopEvents (s : ReadBufferFromPocoSocket) (N : Nat) : List Event :=
  if s.async_callback then waitTrace s N else []

/-- The answer with which lines 43-47 end: the `std::bad_cast` of a failed cast
at line 45, or else the answer of the `receiveBytes` call of line 47. -/
def receiveAnswer (env : Environment) (s : ReadBufferFromPocoSocket) : Answer Received :=
  match guardedSocket s with
  | .threw e => .threw e
  | .returned g => (receiveCall s g.2).answer env

/-- The `receiveBytes` call that lines 43-47 make: none after a failed cast at
line 45, else the one call of line 47. -/
def receiveEvents (s : ReadBufferFromPocoSocket) : List Event :=
  match guardedSocket s with
  | .threw _ => []
  | .returned g => [(receiveCall s g.2).event]

/-- Whether line 45 passes: the socket is not secure (no cast is made) or it is
a `StreamSocket` (the cast succeeds). -/
def castSucceeds (s : ReadBufferFromPocoSocket) : Bool :=
  !s.socket.secure || s.socket.is_stream_socket

/-- The loop of lines 37-38 is left normally after `N` hook calls: when a hook
is installed, the first `N` zero-timeout polls answer not-readable, the hook
returns each time, and poll `N + 1` answers readable.  Without a hook the loop
is left at once. -/
def WaitEnds (env : Environment) (s : ReadBufferFromPocoSocket) (N : Nat) : Prop :=
  s.async_callback = true →
    (∀ k, k < N → env.poll k 0 SELECT_READ = .returned false ∧
      env.async_callback k s.socket.sockfd s.socket.receive_timeout s.socket_description
        = .returned ()) ∧
    env.poll N 0 SELECT_READ = .returned true

/-- Whether a call is a poll of the socket. -/
def Event.isPoll : Event → Bool
  | .poll _ _ => true
  | _ => false

/-- Whether a call is a call of the hook. -/
def Event.isCallback : Event → Bool
  | .async_callback _ _ _ => true
  | _ => false

/-- Whether a call is a `receiveBytes` call. -/
def Event.isReceive : Event → Bool
  | .receiveBytes _ _ _ _ => true
  | _ => false

/-- Whether a call is an increment of the timing counter. -/
def Event.isIncrement : Event → Bool
  | .increment _ => true
  | _ => false

/-- The valid window is no longer than the allocated capacity. -/
def WindowFits (s : ReadBufferFromPocoSocket) : Prop :=
  s.working_buffer.size ≤ s.internal_buffer.size

/-- Every `receiveBytes` call returns at most the number of bytes asked for. -/
def ReceiveBounded (env : Environment) : Prop :=
  ∀ (length : Int) (send_timeout receive_timeout : Timespan) (r : Received),
    env.receiveBytes length send_timeout receive_timeout = .returned r →
    r.count ≤ length

/-! ## Sample inputs -/

/-- Collaborators whose socket is not readable at the first two zero-timeout
polls and readable from the third on, whose hook returns, whose `receiveBytes`
gives `answer`, and whose stopwatch reads 7. -/
def sampleEnvironment (answer : Answer Received) : Environment :=
  { poll := fun k _ _ => .returned (decide (2 ≤ k)),
    async_callback := fun _ _ _ _ => .returned (),
    receiveBytes := fun _ _ _ => answer,
    elapsedMicroseconds := 7 }

/-- Collaborators like those of `sampleEnvironment` whose `receiveBytes` gives
the first `length` of the bytes 1, 2, 3 and returns their number. -/
def boundedEnvironment : Environment :=
  { poll := fun k _ _ => .returned (decide (2 ≤ k)),
    async_callback := fun _ _ _ _ => .returned (),
    receiveBytes := fun length _ _ =>
      .returned { count := min 3 length, bytes := [1, 2, 3].take length.toNat },
    elapsedMicroseconds := 7 }

/-- A fresh reader of capacity 4 over a plain socket with send timeout 10 and
receive timeout 20. -/
def freshReader : ReadBufferFromPocoSocket :=
  ReadBufferFromPocoSocket.create
    { sockfd := 5, secure := false, is_stream_socket := true, send_timeout := 10,
      receive_timeout := 20 } "peer" 4

/-- The reader `freshReader` after a refill that received the bytes 1, 2, 3. -/
def refilledReader : ReadBufferFromPocoSocket :=
  { freshReader with memory := [1, 2, 3, 0], working_buffer := { begin_pos := 0, end_pos := 3 } }

/-- A fresh reader of capacity 4 over a secure stream socket with send timeout
10 and receive timeout 20, with a hook installed. -/
def secureReader : ReadBufferFromPocoSocket :=
  { ReadBufferFromPocoSocket.create
      { sockfd := 5, secure := true, is_stream_socket := true, send_timeout := 10,
        receive_timeout := 20 } "peer" 4 with
    async_callback := true }

/-- A reader like `secureReader` over a socket object that is secure and is no
`StreamSocket` (a plain `Poco::Net::Socket` copied from a secure one). -/
def slicedReader : ReadBufferFromPocoSocket :=
  { secureReader with socket := { secureReader.socket with is_stream_socket := false } }

/-- A fresh reader of capacity 4294967300, which is `2 ^ 32 + 4`, over a plain
socket with send timeout 10 and receive timeout 20. -/
def hugeReader : ReadBufferFromPocoSocket :=
  ReadBufferFromPocoSocket.create
    { sockfd := 5, secure := false, is_stream_socket := true, send_timeout := 10,
      receive_timeout := 20 } "peer" 4294967300

/-! ## Lemmas -/

theorem waitLoop_ends (env : Environment) (s : ReadBufferFromPocoSocket)
    (hcb : s.async_callback = true) :
    ∀ (N fuel k : Nat),
      (∀ j, j < N → env.poll (k + j) 0 SELECT_READ = .returned false ∧
        env.async_callback (k + j) s.socket.sockfd s.socket.receive_timeout
          s.socket_description = .returned ()) →
      env.poll (k + N) 0 SELECT_READ = .returned true → N < fuel →
      waitLoop env s fuel k = some (.returned (), waitTrace s N) := by
  intro N
  induction N with
  | zero =>
    intro fuel k _ ht hlt
    cases fuel with
    | zero => omega
    | succ f =>
      have ht0 : env.poll k 0 SELECT_READ = .returned true := by simpa using ht
      simp [waitLoop, hcb, ht0, waitTrace]
  | succ n ih =>
    intro fuel k hf ht hlt
    cases fuel with
    | zero => omega
    | succ f =>
      have h0 := hf 0 (by omega)
      simp only [Nat.add_zero] at h0
      have hrec := ih f (k + 1)
        (fun j hj => by
          have := hf (j + 1) (by omega)
          rwa [show k + (j + 1) = k + 1 + j by omega] at this)
        (by rwa [show k + (n + 1) = k + 1 + n by omega] at ht)
        (by omega)
      simp [waitLoop, hcb, h0.1, h0.2, hrec, waitTrace]

theorem waitLoop_no_hook (env : Environment) (s : ReadBufferFromPocoSocket)
    (hcb : s.async_callback = false) (fuel k : Nat) :
    waitLoop env s (fuel + 1) k = some (.returned (), []) := by
  simp [waitLoop, hcb]

theorem waitLoop_of_waitEnds (env : Environment) (s : ReadBufferFromPocoSocket) (N fuel : Nat)
    (hwait : WaitEnds env s N) (hfuel : N < fuel) :
    waitLoop env s fuel 0 = some (.returned (), loopEvents s N) := by
  cases hcb : s.async_callback with
  | false =>
    cases fuel with
    | zero => omega
    | succ f => simp [waitLoop_no_hook env s hcb, loopEvents, hcb]
  | true =>
    have h := hwait hcb
    have := waitLoop_ends env s hcb N fuel 0
      (fun j hj => by simpa using h.1 j hj) (by simpa using h.2) hfuel
    simp [this, loopEvents, hcb]

theorem nextImpl_of_waitEnds (env : Environment) (s : ReadBufferFromPocoSocket) (N fuel : Nat)
    (hwait : WaitEnds env s N) (hfuel : N < fuel) :
    nextImpl fuel env s = some (receiveAndComplete env s (loopEvents s N)) := by
  simp [nextImpl, waitLoop_of_waitEnds env s N fuel hwait hfuel]

theorem waitLoop_trace (env : Environment) (s : ReadBufferFromPocoSocket) :
    ∀ (fuel k : Nat) (a : Answer Unit) (tr : List Event),
      waitLoop env s fuel k = some (a, tr) →
      ∀ ev ∈ tr, ev = loopPoll ∨ ev = loopCallback s := by
  intro fuel
  induction fuel with
  | zero => intro k a tr h; simp [waitLoop] at h
  | succ f ih =>
    intro k a tr h ev hev
    unfold waitLoop at h
    split at h
    · split at h
      · simp at h; obtain ⟨_, rfl⟩ := h; simp at hev; exact Or.inl hev
      · simp at h; obtain ⟨_, rfl⟩ := h; simp at hev; exact Or.inl hev
      · split at h
        · simp at h; obtain ⟨_, rfl⟩ := h; simpa using hev
        · split at h
          · simp at h
          · rename_i a1 tr1 hw
            simp at h; obtain ⟨_, rfl⟩ := h
            simp at hev
            rcases hev with h1 | h1 | h1
            · exact Or.inl h1
            · exact Or.inr h1
            · exact ih _ _ _ hw ev h1
    · simp at h; obtain ⟨_, rfl⟩ := h; simp at hev

theorem narrowToInt_le (n : Nat) : narrowToInt n ≤ (n : Int) := by
  unfold narrowToInt
  have h := Nat.mod_le n (2 ^ 32)
  split <;> omega

theorem narrowToInt_small (n : Nat) (h : n < 2 ^ 31) : narrowToInt n = (n : Int) := by
  unfold narrowToInt
  have h1 : n % 2 ^ 32 = n := Nat.mod_eq_of_lt (by omega)
  rw [h1, if_pos h]

theorem toTimespan_small (n : Nat) (h : n < 2 ^ 63) : toTimespan n = (n : Int) := by
  unfold toTimespan
  have h1 : n % 2 ^ 64 = n := Nat.mod_eq_of_lt (by omega)
  rw [h1, if_pos h]

theorem toTimespan_large (n : Nat) (h : 2 ^ 63 ≤ n) (h2 : n < 2 ^ 64) :
    toTimespan n = (n : Int) - 2 ^ 64 := by
  unfold toTimespan
  have h1 : n % 2 ^ 64 = n := Nat.mod_eq_of_lt h2
  rw [h1, if_neg (by omega)]

theorem releaseGuard_guardedSocket (s : ReadBufferFromPocoSocket)
    (g : Option TimeoutSetter × Socket) (h : guardedSocket s = .returned g) :
    releaseGuard g = s.socket := by
  unfold guardedSocket at h
  split at h
  · split at h
    · cases h; simp [releaseGuard, TimeoutSetter.acquire, TimeoutSetter.release]
    · cases h
  · cases h; simp [releaseGuard]

theorem guardedSocket_secure (s : ReadBufferFromPocoSocket) (h : s.socket.secure = true)
    (g : Option TimeoutSetter × Socket) (hg : guardedSocket s = .returned g) :
    g.2.send_timeout = s.socket.receive_timeout ∧
    g.2.receive_timeout = s.socket.receive_timeout := by
  unfold guardedSocket at hg
  rw [if_pos h] at hg
  split at hg
  · cases hg; simp [TimeoutSetter.acquire]
  · cases hg

theorem guardedSocket_of_castSucceeds (s : ReadBufferFromPocoSocket)
    (h : castSucceeds s = true) : ∃ g, guardedSocket s = .returned g := by
  unfold castSucceeds at h
  unfold guardedSocket
  cases hs : s.socket.secure <;> cases hc : s.socket.is_stream_socket <;> simp_all

theorem guardedSocket_of_castFails (s : ReadBufferFromPocoSocket)
    (h : castSucceeds s = false) : guardedSocket s = .threw bad_cast := by
  unfold castSucceeds at h
  unfold guardedSocket
  cases hs : s.socket.secure <;> cases hc : s.socket.is_stream_socket <;> simp_all

theorem receiveEvents_of_castFails (s : ReadBufferFromPocoSocket)
    (h : castSucceeds s = false) : receiveEvents s = [] := by
  simp [receiveEvents, guardedSocket_of_castFails s h]

theorem receiveAnswer_of_castFails (env : Environment) (s : ReadBufferFromPocoSocket)
    (h : castSucceeds s = false) : receiveAnswer env s = .threw bad_cast := by
  simp [receiveAnswer, guardedSocket_of_castFails s h]

theorem receiveEvents_of_castSucceeds (s : ReadBufferFromPocoSocket)
    (h : castSucceeds s = true) :
    ∃ st rt, receiveEvents s
      = [Event.receiveBytes s.internal_buffer.begin_pos (narrowToInt s.internal_buffer.size)
          st rt] := by
  obtain ⟨g, hg⟩ := guardedSocket_of_castSucceeds s h
  exact ⟨g.2.send_timeout, g.2.receive_timeout, by
    simp [receiveEvents, hg, receiveCall, ReceiveCall.event]⟩

theorem receiveEvents_mem (s : ReadBufferFromPocoSocket) (ev : Event)
    (h : ev ∈ receiveEvents s) :
    ∃ st rt, ev = Event.receiveBytes s.internal_buffer.begin_pos
      (narrowToInt s.internal_buffer.size) st rt ∧
      (s.socket.secure = true → st = s.socket.receive_timeout ∧ rt = s.socket.receive_timeout) := by
  unfold receiveEvents at h
  split at h
  · simp at h
  · rename_i g hg
    simp only [List.mem_singleton] at h
    refine ⟨g.2.send_timeout, g.2.receive_timeout, by
      rw [h]; simp [receiveCall, ReceiveCall.event], ?_⟩
    intro hs
    exact guardedSocket_secure s hs g hg

theorem store_length (memory bytes : List Byte) : (store memory bytes).length = memory.length := by
  simp [store]; omega

theorem store_nil (memory : List Byte) : store memory [] = memory := by
  simp [store]

theorem guardedReceive_threw (env : Environment) (s : ReadBufferFromPocoSocket)
    (e : ForeignException) (h : receiveAnswer env s = .threw e) :
    guardedReceive env s = (.threw e, s, receiveEvents s) := by
  unfold receiveAnswer at h
  unfold guardedReceive receiveEvents
  split at h
  · rename_i e1 hg
    cases h
    simp [hg]
  · rename_i g hg
    simp [hg, h, releaseGuard_guardedSocket s g hg]

theorem guardedReceive_returned (env : Environment) (s : ReadBufferFromPocoSocket)
    (r : Received) (h : receiveAnswer env s = .returned r) :
    guardedReceive env s =
      (.returned r.count, { s with memory := store s.memory r.bytes }, receiveEvents s) := by
  unfold receiveAnswer at h
  unfold guardedReceive receiveEvents
  split at h
  · cases h
  · rename_i g hg
    simp [hg, h, releaseGuard_guardedSocket s g hg]

theorem receiveAndComplete_trace (env : Environment) (s : ReadBufferFromPocoSocket)
    (tr : List Event) :
    ∃ rest, (receiveAndComplete env s tr).trace = tr ++ receiveEvents s ++ rest ∧
      (rest = [] ∨ rest = [Event.increment env.elapsedMicroseconds]) := by
  unfold receiveAndComplete
  cases h : receiveAnswer env s with
  | threw e =>
    rw [guardedReceive_threw env s e h]
    exact ⟨[], by simp, Or.inl rfl⟩
  | returned r =>
    rw [guardedReceive_returned env s r h]
    simp only
    unfold complete
    split
    · exact ⟨[], by simp, Or.inl rfl⟩
    · split
      · exact ⟨[Event.increment env.elapsedMicroseconds], by simp, Or.inr rfl⟩
      · exact ⟨[Event.increment env.elapsedMicroseconds], by simp, Or.inr rfl⟩

theorem receiveAndComplete_socket (env : Environment) (s : ReadBufferFromPocoSocket)
    (tr : List Event) : (receiveAndComplete env s tr).state.socket = s.socket := by
  unfold receiveAndComplete
  cases h : receiveAnswer env s with
  | threw e => simp [guardedReceive_threw env s e h]
  | returned r =>
    simp only [guardedReceive_returned env s r h]
    unfold complete
    split
    · rfl
    · split <;> rfl

theorem waitTrace_countP_isCallback (s : ReadBufferFromPocoSocket) (N : Nat) :
    (waitTrace s N).countP Event.isCallback = N := by
  induction N with
  | zero => simp [waitTrace, loopPoll, Event.isCallback]
  | succ n ih => simp [waitTrace, loopPoll, loopCallback, Event.isCallback, ih]

theorem waitTrace_countP_isPoll (s : ReadBufferFromPocoSocket) (N : Nat) :
    (waitTrace s N).countP Event.isPoll = N + 1 := by
  induction N with
  | zero => simp [waitTrace, loopPoll, Event.isPoll]
  | succ n ih => simp [waitTrace, loopPoll, loopCallback, Event.isPoll, ih]

theorem waitTrace_countP_isReceive (s : ReadBufferFromPocoSocket) (N : Nat) :
    (waitTrace s N).countP Event.isReceive = 0 := by
  induction N with
  | zero => simp [waitTrace, loopPoll, Event.isReceive]
  | succ n ih => simp [waitTrace, loopPoll, loopCallback, Event.isReceive, ih]

theorem waitTrace_mem (s : ReadBufferFromPocoSocket) (N : Nat) :
    ∀ ev ∈ waitTrace s N, ev = loopPoll ∨ ev = loopCallback s := by
  induction N with
  | zero => intro ev h; simp [waitTrace] at h; exact Or.inl h
  | succ n ih =>
    intro ev h
    simp [waitTrace] at h
    rcases h with h | h | h
    · exact Or.inl h
    · exact Or.inr h
    · exact ih ev h

theorem create_window_start (socket : Socket) (peer : String) (C : Nat) :
    (ReadBufferFromPocoSocket.create socket peer C).working_buffer.begin_pos
      = (ReadBufferFromPocoSocket.create socket peer C).internal_buffer.begin_pos := rfl

theorem nextImpl_keeps_window_start (fuel : Nat) (env : Environment)
    (s : ReadBufferFromPocoSocket) (r : Outcome Bool) (h : nextImpl fuel env s = some r) :
    r.state.working_buffer.begin_pos = s.working_buffer.begin_pos ∧
    r.state.internal_buffer.begin_pos = s.internal_buffer.begin_pos := by
  unfold nextImpl at h
  split at h
  · cases h
  · cases h; exact ⟨rfl, rfl⟩
  · cases h
    refine ⟨?_, rfl⟩
    cases hr : receiveAnswer env s with
    | threw e => simp [receiveAndComplete, guardedReceive_threw env s e hr]
    | returned received =>
      simp only [receiveAndComplete, guardedReceive_returned env s received hr, complete]
      split
      · rfl
      · split <;> rfl

theorem create_capacity (socket : Socket) (peer : String) (C : Nat) :
    (ReadBufferFromPocoSocket.create socket peer C).internal_buffer.size = C := by
  simp [ReadBufferFromPocoSocket.create, ReadBufferFromPocoSocket.internal_buffer, Buffer.size]

theorem create_refill (env : Environment) (socket : Socket) (peer : String) (C : Nat)
    (received : Received) (hplain : socket.secure = false)
    (hans : env.receiveBytes (narrowToInt C) socket.send_timeout socket.receive_timeout
      = .returned received)
    (hpos : 0 < received.count) :
    (nextImpl 1 env (ReadBufferFromPocoSocket.create socket peer C)).map
        (fun r => (r.result, r.trace))
      = some (.returned true,
          [Event.receiveBytes 0 (narrowToInt C) socket.send_timeout socket.receive_timeout,
           Event.increment env.elapsedMicroseconds]) := by
  have hwait : WaitEnds env (ReadBufferFromPocoSocket.create socket peer C) 0 := by
    intro h
    simp [ReadBufferFromPocoSocket.create] at h
  have hsize := create_capacity socket peer C
  have hanswer : receiveAnswer env (ReadBufferFromPocoSocket.create socket peer C)
      = .returned received := by
    simp only [receiveAnswer, guardedSocket, receiveCall, ReceiveCall.answer, hsize]
    simp [ReadBufferFromPocoSocket.create, hplain, hans]
  have hevents : receiveEvents (ReadBufferFromPocoSocket.create socket peer C)
      = [Event.receiveBytes 0 (narrowToInt C) socket.send_timeout socket.receive_timeout] := by
    simp only [receiveEvents, guardedSocket, receiveCall, ReceiveCall.event, hsize]
    simp [ReadBufferFromPocoSocket.create, hplain, ReadBufferFromPocoSocket.internal_buffer]
  have h1 : ¬ received.count < 0 := by omega
  have h2 : received.count ≠ 0 := by omega
  rw [nextImpl_of_waitEnds _ _ 0 1 hwait (by decide)]
  simp only [Option.map_some', receiveAndComplete, guardedReceive_returned _ _ _ hanswer,
    complete, h1, h2, if_false, ne_eq, not_false_eq_true, if_true, hevents, loopEvents]
  simp [ReadBufferFromPocoSocket.create]

/-! ## Claims -/

/-- C1.  For a reader whose valid window starts at the start of the internal
buffer (as the constructor leaves it and every refill keeps it), of any
capacity: if the receive of a refill returns `n` with `0 < n` and `n` at most
the capacity, having stored `n` bytes, `nextImpl` returns true, the valid
window is `n` bytes long and holds those bytes in the same order. -/
theorem nextImpl_fills_window (fuel N : Nat) (env : Environment)
    (s : ReadBufferFromPocoSocket) (n : Nat) (bytes : List Byte)
    (hwait : WaitEnds env s N) (hfuel : N < fuel)
    (hbegin : s.working_buffer.begin_pos = s.internal_buffer.begin_pos)
    (hrecv : receiveAnswer env s = .returned ⟨(n : Int), bytes⟩)
    (hlen : bytes.length = n) (hpos : 0 < n) (hcap : n ≤ s.internal_buffer.size) :
    ∃ r, nextImpl fuel env s = some r ∧ r.result = .returned true ∧
      r.state.working_buffer.size = n ∧ r.state.window = bytes := by
  have hcap2 : n ≤ s.memory.length := by
    simpa [ReadBufferFromPocoSocket.internal_buffer, Buffer.size] using hcap
  have hb0 : s.working_buffer.begin_pos = 0 := by
    simpa [ReadBufferFromPocoSocket.internal_buffer] using hbegin
  have hn0 : ¬ ((n : Int) < 0) := by omega
  have hn1 : (n : Int) ≠ 0 := by omega
  refine ⟨_, nextImpl_of_waitEnds env s N fuel hwait hfuel, ?_, ?_, ?_⟩
  · simp [receiveAndComplete, guardedReceive_returned env s _ hrecv, complete, hn0, hn1]
  · simp [receiveAndComplete, guardedReceive_returned env s _ hrecv, complete, hn0, hn1,
      Buffer.resize, Buffer.size]
  · have htake : List.take s.memory.length bytes = bytes :=
      List.take_of_length_le (by omega)
    simp only [receiveAndComplete, guardedReceive_returned env s _ hrecv, complete, hn0, hn1,
      Buffer.resize, Buffer.size, ReadBufferFromPocoSocket.window, hb0, store, htake,
      if_false, ne_eq, not_false_eq_true, if_true, List.drop_zero, Int.toNat_ofNat,
      Nat.add_sub_cancel_left, Nat.zero_add]
    rw [List.take_append_of_le_length (by omega)]
    exact List.take_of_length_le (by omega)

/-- Witness of C1: a refill that receives the bytes 1, 2, 3 after two hook calls. -/
theorem nextImpl_fills_window_witness :
    ∃ r, nextImpl 3 (sampleEnvironment (.returned ⟨3, [1, 2, 3]⟩)) secureReader = some r ∧
      r.result = .returned true ∧ r.state.working_buffer.size = 3 ∧
      r.state.window = [1, 2, 3] :=
  nextImpl_fills_window 3 2 (sampleEnvironment (.returned ⟨3, [1, 2, 3]⟩)) secureReader 3
    [1, 2, 3] (fun _ => ⟨fun k hk => by interval_cases k <;> exact ⟨rfl, rfl⟩, rfl⟩)
    (by decide) rfl rfl rfl (by decide) (by decide)

/-- C2, as the spec words it, fails.  The reader `refilledReader` is what a
refill that received three bytes leaves of a fresh reader.  A refill of it whose
receive returns 0 returns false and leaves the valid window three bytes long,
whether the caller has consumed none of them (`pos = 0`) or all of them
(`pos = 3`). -/
theorem end_of_stream_keeps_window :
    (nextImpl 1 (sampleEnvironment (.returned ⟨3, [1, 2, 3]⟩)) freshReader).map
        (fun r => (r.result, r.state)) = some (.returned true, refilledReader) ∧
    receiveAnswer (sampleEnvironment (.returned ⟨0, []⟩)) refilledReader
        = .returned ⟨0, []⟩ ∧
    (nextImpl 1 (sampleEnvironment (.returned ⟨0, []⟩)) refilledReader).map
        (fun r => (r.result, r.state.working_buffer.size, r.state.window))
        = some (.returned false, 3, [1, 2, 3]) ∧
    (nextImpl 1 (sampleEnvironment (.returned ⟨0, []⟩)) { refilledReader with pos := 3 }).map
        (fun r => (r.result, r.state.working_buffer.size, r.state.window))
        = some (.returned false, 3, [1, 2, 3]) := by
  refine ⟨?_, ?_, ?_, ?_⟩ <;> decide

/-- C2, amended.  If the receive of a refill returns 0 (no byte stored),
`nextImpl` returns false, throws nothing and leaves the reader as it was: the
valid window keeps its length, so it is empty afterwards when it was empty
before.  A second refill whose receive again returns 0 returns the same
result and leaves the same reader. -/
theorem nextImpl_end_of_stream (fuel N fuel2 N2 : Nat) (env env2 : Environment)
    (s : ReadBufferFromPocoSocket)
    (hwait : WaitEnds env s N) (hfuel : N < fuel)
    (hrecv : receiveAnswer env s = .returned ⟨0, []⟩)
    (hwait2 : WaitEnds env2 s N2) (hfuel2 : N2 < fuel2)
    (hrecv2 : receiveAnswer env2 s = .returned ⟨0, []⟩) :
    ∃ r r2, nextImpl fuel env s = some r ∧ r.result = .returned false ∧ r.state = s ∧
      r.state.working_buffer.size = s.working_buffer.size ∧
      nextImpl fuel2 env2 r.state = some r2 ∧ r2.result = r.result ∧ r2.state = r.state := by
  have e1 : (receiveAndComplete env s (loopEvents s N)).state = s := by
    simp [receiveAndComplete, guardedReceive_returned env s _ hrecv, complete, store_nil]
  have e2 : (receiveAndComplete env2 s (loopEvents s N2)).state = s := by
    simp [receiveAndComplete, guardedReceive_returned env2 s _ hrecv2, complete, store_nil]
  refine ⟨_, receiveAndComplete env2 s (loopEvents s N2),
    nextImpl_of_waitEnds env s N fuel hwait hfuel, ?_, e1, by rw [e1], ?_, ?_, ?_⟩
  · simp [receiveAndComplete, guardedReceive_returned env s _ hrecv, complete]
  · rw [e1]; exact nextImpl_of_waitEnds env2 s N2 fuel2 hwait2 hfuel2
  · simp [receiveAndComplete, guardedReceive_returned env s _ hrecv,
      guardedReceive_returned env2 s _ hrecv2, complete]
  · rw [e1, e2]

/-- Witness of C2 amended: two refills of the refilled reader, each receiving 0. -/
theorem nextImpl_end_of_stream_witness :
    ∃ r r2, nextImpl 1 (sampleEnvironment (.returned ⟨0, []⟩)) refilledReader = some r ∧
      r.result = .returned false ∧ r.state = refilledReader ∧
      r.state.working_buffer.size = refilledReader.working_buffer.size ∧
      nextImpl 1 (sampleEnvironment (.returned ⟨0, []⟩)) r.state = some r2 ∧
      r2.result = r.result ∧ r2.state = r.state :=
  nextImpl_end_of_stream 1 0 1 0 (sampleEnvironment (.returned ⟨0, []⟩))
    (sampleEnvironment (.returned ⟨0, []⟩)) refilledReader
    (fun h => by cases h) (by decide) rfl (fun h => by cases h) (by decide) rfl

/-- C3.  If the receive of a refill throws a `Poco::TimeoutException`,
`nextImpl` throws a `NetException` with code `SOCKET_TIMEOUT`, a code that is
neither `NETWORK_ERROR` nor `CANNOT_READ_FROM_SOCKET`, with the peer address in
the message, and leaves the reader, valid window included, as it was. -/
theorem nextImpl_timeout_fault (fuel N : Nat) (env : Environment)
    (s : ReadBufferFromPocoSocket) (text : String)
    (hwait : WaitEnds env s N) (hfuel : N < fuel)
    (hrecv : receiveAnswer env s = .threw ⟨.timeoutException, text⟩) :
    ∃ r, nextImpl fuel env s = some r ∧
      r.result = .threw (.NetException
        ("Timeout exceeded while reading from socket (" ++ s.peer_address ++ ")")
        .SOCKET_TIMEOUT) ∧
      ErrorCode.SOCKET_TIMEOUT ≠ ErrorCode.NETWORK_ERROR ∧
      ErrorCode.SOCKET_TIMEOUT ≠ ErrorCode.CANNOT_READ_FROM_SOCKET ∧
      r.state.working_buffer = s.working_buffer ∧ r.state = s := by
  refine ⟨_, nextImpl_of_waitEnds env s N fuel hwait hfuel, ?_, by decide, by decide, ?_, ?_⟩ <;>
    simp [receiveAndComplete, guardedReceive_threw env s _ hrecv, translate]

/-- Witness of C3: a receive that throws a timeout after two hook calls. -/
theorem nextImpl_timeout_fault_witness :
    ∃ r, nextImpl 3 (sampleEnvironment (.threw ⟨.timeoutException, "timeout"⟩)) secureReader
        = some r ∧
      r.result = .threw (.NetException
        ("Timeout exceeded while reading from socket (" ++ secureReader.peer_address ++ ")")
        .SOCKET_TIMEOUT) ∧
      ErrorCode.SOCKET_TIMEOUT ≠ ErrorCode.NETWORK_ERROR ∧
      ErrorCode.SOCKET_TIMEOUT ≠ ErrorCode.CANNOT_READ_FROM_SOCKET ∧
      r.state.working_buffer = secureReader.working_buffer ∧ r.state = secureReader :=
  nextImpl_timeout_fault 3 2 (sampleEnvironment (.threw ⟨.timeoutException, "timeout"⟩))
    secureReader "timeout"
    (fun _ => ⟨fun k hk => by interval_cases k <;> exact ⟨rfl, rfl⟩, rfl⟩) (by decide) rfl

/-- C4.  If the receive of a refill throws a `Poco::Net::NetException` or
another `Poco::IOException`, `nextImpl` throws a `NetException` with code
`NETWORK_ERROR`, the same code and message form in both cases. -/
theorem nextImpl_network_fault (fuel N : Nat) (env : Environment)
    (s : ReadBufferFromPocoSocket) (e : ForeignException)
    (hwait : WaitEnds env s N) (hfuel : N < fuel)
    (hrecv : receiveAnswer env s = .threw e)
    (hkind : e.kind = .netException ∨ e.kind = .ioException) :
    ∃ r, nextImpl fuel env s = some r ∧
      r.result = .threw (.NetException
        (e.displayText ++ ", while reading from socket (" ++ s.peer_address ++ ")")
        .NETWORK_ERROR) := by
  refine ⟨_, nextImpl_of_waitEnds env s N fuel hwait hfuel, ?_⟩
  rcases hkind with h | h <;>
    simp [receiveAndComplete, guardedReceive_threw env s _ hrecv, translate, h]

/-- Witness of C4: a receive that throws a general I/O exception. -/
theorem nextImpl_network_fault_witness :
    ∃ r, nextImpl 1 (sampleEnvironment (.threw ⟨.ioException, "broken pipe"⟩)) freshReader
        = some r ∧
      r.result = .threw (.NetException
        ("broken pipe" ++ ", while reading from socket (" ++ freshReader.peer_address ++ ")")
        .NETWORK_ERROR) :=
  nextImpl_network_fault 1 0 (sampleEnvironment (.threw ⟨.ioException, "broken pipe"⟩))
    freshReader ⟨.ioException, "broken pipe"⟩ (fun h => by cases h) (by decide) rfl
    (Or.inr rfl)

/-- C5.  If the receive of a refill returns a negative value and throws
nothing, `nextImpl` throws a `NetException` with code
`CANNOT_READ_FROM_SOCKET`: it returns neither true nor false (end of stream). -/
theorem nextImpl_read_fault (fuel N : Nat) (env : Environment)
    (s : ReadBufferFromPocoSocket) (received : Received)
    (hwait : WaitEnds env s N) (hfuel : N < fuel)
    (hrecv : receiveAnswer env s = .returned received) (hneg : received.count < 0) :
    ∃ r, nextImpl fuel env s = some r ∧
      r.result = .threw (.NetException
        ("Cannot read from socket (" ++ s.peer_address ++ ")")
        .CANNOT_READ_FROM_SOCKET) ∧
      (∀ b, r.result ≠ .returned b) ∧
      r.state.working_buffer = s.working_buffer := by
  have hres : (receiveAndComplete env s (loopEvents s N)).result = .threw (.NetException
        ("Cannot read from socket (" ++ s.peer_address ++ ")")
        .CANNOT_READ_FROM_SOCKET) := by
    simp [receiveAndComplete, guardedReceive_returned env s _ hrecv, complete, hneg]
  refine ⟨_, nextImpl_of_waitEnds env s N fuel hwait hfuel, hres, ?_, ?_⟩
  · intro b hb; rw [hres] at hb; cases hb
  · simp [receiveAndComplete, guardedReceive_returned env s _ hrecv, complete, hneg]

/-- Witness of C5: a receive that returns -1. -/
theorem nextImpl_read_fault_witness :
    ∃ r, nextImpl 1 (sampleEnvironment (.returned ⟨-1, []⟩)) freshReader = some r ∧
      r.result = .threw (.NetException
        ("Cannot read from socket (" ++ freshReader.peer_address ++ ")")
        .CANNOT_READ_FROM_SOCKET) ∧
      (∀ b, r.result ≠ .returned b) ∧
      r.state.working_buffer = freshReader.working_buffer :=
  nextImpl_read_fault 1 0 (sampleEnvironment (.returned ⟨-1, []⟩)) freshReader ⟨-1, []⟩
    (fun h => by cases h) (by decide) rfl (by decide)

/-- C6, as the spec words it, fails.  The window of `freshReader` is empty and
`poll` is called with the timeout `2 ^ 64 - 1`, the largest `size_t`: the socket
is polled with the timeout -1, not with the given timeout. -/
theorem poll_wraps_timeout :
    freshReader.available = 0 ∧
    poll (sampleEnvironment (.returned ⟨0, []⟩)) freshReader 18446744073709551615
      = (.returned false, [Event.poll (-1) (SELECT_READ ||| SELECT_ERROR)]) := by
  constructor <;> decide

/-- C6, amended.  For every `size_t` timeout: when `available()` is not zero,
`poll` returns true and calls nothing on the socket.  When it is zero, `poll`
makes the one call `socket.poll(t, SELECT_READ | SELECT_ERROR)`, no receive,
and ends as that call ends, `t` being the given timeout converted to
`Poco::Timespan`: the given timeout when it is below `2 ^ 63`, and the given
timeout minus `2 ^ 64` from `2 ^ 63` on. -/
theorem poll_ready (env : Environment) (s : ReadBufferFromPocoSocket)
    (timeout_microseconds : Nat) (hsize : timeout_microseconds < 2 ^ 64) :
    (s.available ≠ 0 → poll env s timeout_microseconds = (.returned true, [])) ∧
    (s.available = 0 →
      (poll env s timeout_microseconds).2
        = [Event.poll (toTimespan timeout_microseconds) (SELECT_READ ||| SELECT_ERROR)] ∧
      (∀ b, env.poll 0 (toTimespan timeout_microseconds) (SELECT_READ ||| SELECT_ERROR)
          = .returned b → (poll env s timeout_microseconds).1 = .returned b) ∧
      (∀ e, env.poll 0 (toTimespan timeout_microseconds) (SELECT_READ ||| SELECT_ERROR)
          = .threw e → (poll env s timeout_microseconds).1 = .threw (.propagated e))) ∧
    (timeout_microseconds < 2 ^ 63 →
      toTimespan timeout_microseconds = (timeout_microseconds : Int)) ∧
    (2 ^ 63 ≤ timeout_microseconds →
      toTimespan timeout_microseconds = (timeout_microseconds : Int) - 2 ^ 64) := by
  refine ⟨?_, ?_, toTimespan_small _, fun h => toTimespan_large _ h hsize⟩
  · intro h; simp [poll, h]
  · intro h
    refine ⟨?_, ?_, ?_⟩
    · unfold poll; rw [if_neg (by simp [h])]; split <;> rfl
    · intro b hb; unfold poll; rw [if_neg (by simp [h]), hb]
    · intro e he; unfold poll; rw [if_neg (by simp [h]), he]

/-- Witness of C6 amended: an empty window and a timeout of 9 microseconds. -/
theorem poll_ready_witness :
    (poll (sampleEnvironment (.returned ⟨0, []⟩)) freshReader 9).2
      = [Event.poll 9 (SELECT_READ ||| SELECT_ERROR)] :=
  ((poll_ready (sampleEnvironment (.returned ⟨0, []⟩)) freshReader 9 (by decide)).2.1
    (by decide)).1

/-- C7.  For a secure socket with send timeout S and receive timeout R: every
`receiveBytes` call of a refill is made with both timeouts equal to R, and a
refill that ends, however it ends, leaves the socket as it was, with send
timeout S and receive timeout R.  When the loop of line 37 is left normally and
the socket is a `StreamSocket`, the refill does end, it makes that
`receiveBytes` call, and it ends as the answer of the socket under the
timeouts (R, R) decides.  When the socket is no `StreamSocket`, the refill
ends with the `std::bad_cast` of line 45 and makes no `receiveBytes` call. -/
theorem nextImpl_secure_timeouts (fuel : Nat) (env : Environment)
    (s : ReadBufferFromPocoSocket) (hsecure : s.socket.secure = true) :
    (∀ r, nextImpl fuel env s = some r →
      r.state.socket = s.socket ∧
      r.state.socket.send_timeout = s.socket.send_timeout ∧
      r.state.socket.receive_timeout = s.socket.receive_timeout ∧
      ∀ b l st rt, Event.receiveBytes b l st rt ∈ r.trace →
        st = s.socket.receive_timeout ∧ rt = s.socket.receive_timeout) ∧
    (∀ N, WaitEnds env s N → N < fuel → s.socket.is_stream_socket = true →
      ∃ r, nextImpl fuel env s = some r ∧
        Event.receiveBytes 0 (narrowToInt s.memory.length) s.socket.receive_timeout
          s.socket.receive_timeout ∈ r.trace ∧
        (∀ e, env.receiveBytes (narrowToInt s.memory.length) s.socket.receive_timeout
            s.socket.receive_timeout = .threw e → r.result = .threw (translate s e)) ∧
        (∀ received, env.receiveBytes (narrowToInt s.memory.length) s.socket.receive_timeout
            s.socket.receive_timeout = .returned received →
          (received.count < 0 → r.result = .threw (.NetException
            ("Cannot read from socket (" ++ s.peer_address ++ ")") .CANNOT_READ_FROM_SOCKET)) ∧
          (received.count = 0 → r.result = .returned false) ∧
          (0 < received.count → r.result = .returned true))) ∧
    (∀ N, WaitEnds env s N → N < fuel → s.socket.is_stream_socket = false →
      ∃ r, nextImpl fuel env s = some r ∧ r.result = .threw (.propagated bad_cast) ∧
        r.state = s ∧ ∀ ev ∈ r.trace, ev.isReceive = false) := by
  refine ⟨?_, ?_, ?_⟩
  · intro r hr
    unfold nextImpl at hr
    split at hr
    · cases hr
    · rename_i e tr hw
      cases hr
      refine ⟨rfl, rfl, rfl, ?_⟩
      intro b l st rt hmem
      rcases waitLoop_trace env s fuel 0 _ _ hw _ hmem with h | h <;>
        simp [loopPoll, loopCallback] at h
    · rename_i tr hw
      cases hr
      obtain ⟨rest, htr, hrest⟩ := receiveAndComplete_trace env s tr
      refine ⟨receiveAndComplete_socket env s tr, by rw [receiveAndComplete_socket],
        by rw [receiveAndComplete_socket], ?_⟩
      intro b l st rt hmem
      rw [htr] at hmem
      simp only [List.mem_append] at hmem
      rcases hmem with (hmem | hmem) | hmem
      · rcases waitLoop_trace env s fuel 0 _ _ hw _ hmem with h | h <;>
          simp [loopPoll, loopCallback] at h
      · obtain ⟨st1, rt1, h1, h2⟩ := receiveEvents_mem s _ hmem
        cases h1
        exact h2 hsecure
      · rcases hrest with h | h <;> simp [h] at hmem
  · intro N hwait hfuel hstream
    have hans : receiveAnswer env s = env.receiveBytes (narrowToInt s.memory.length)
        s.socket.receive_timeout s.socket.receive_timeout := by
      simp [receiveAnswer, guardedSocket, hsecure, hstream, receiveCall, ReceiveCall.answer,
        TimeoutSetter.acquire, ReadBufferFromPocoSocket.internal_buffer, Buffer.size]
    have hev : receiveEvents s = [Event.receiveBytes 0 (narrowToInt s.memory.length)
        s.socket.receive_timeout s.socket.receive_timeout] := by
      simp [receiveEvents, guardedSocket, hsecure, hstream, receiveCall, ReceiveCall.event,
        TimeoutSetter.acquire, ReadBufferFromPocoSocket.internal_buffer, Buffer.size]
    refine ⟨_, nextImpl_of_waitEnds env s N fuel hwait hfuel, ?_, ?_, ?_⟩
    · obtain ⟨rest, htr, _⟩ := receiveAndComplete_trace env s (loopEvents s N)
      rw [htr, hev]
      simp
    · intro e he
      rw [← hans] at he
      simp [receiveAndComplete, guardedReceive_threw env s e he]
    · intro received hr
      rw [← hans] at hr
      refine ⟨?_, ?_, ?_⟩
      · intro h
        simp [receiveAndComplete, guardedReceive_returned env s _ hr, complete, h]
      · intro h
        simp [receiveAndComplete, guardedReceive_returned env s _ hr, complete, h]
      · intro h
        have h1 : ¬ received.count < 0 := by omega
        have h2 : received.count ≠ 0 := by omega
        simp [receiveAndComplete, guardedReceive_returned env s _ hr, complete, h1, h2]
  · intro N hwait hfuel hstream
    have hcast : castSucceeds s = false := by simp [castSucceeds, hsecure, hstream]
    have hans := receiveAnswer_of_castFails env s hcast
    refine ⟨_, nextImpl_of_waitEnds env s N fuel hwait hfuel, ?_, ?_, ?_⟩
    · simp [receiveAndComplete, guardedReceive_threw env s _ hans, translate, bad_cast]
    · simp [receiveAndComplete, guardedReceive_threw env s _ hans]
    · intro ev hev
      simp only [receiveAndComplete, guardedReceive_threw env s _ hans,
        receiveEvents_of_castFails s hcast, List.append_nil] at hev
      unfold loopEvents at hev
      split at hev
      · rcases waitTrace_mem s N ev hev with h | h <;>
          simp [h, loopPoll, loopCallback, Event.isReceive]
      · simp at hev

/-- Witness of C7: a secure stream socket with send timeout 10 and receive
timeout 20, whose refill receives three bytes under the timeouts (20, 20). -/
theorem nextImpl_secure_timeouts_witness :
    ∃ r, nextImpl 3 (sampleEnvironment (.returned ⟨3, [1, 2, 3]⟩)) secureReader = some r ∧
      Event.receiveBytes 0 4 20 20 ∈ r.trace :=
  have h := (nextImpl_secure_timeouts 3 (sampleEnvironment (.returned ⟨3, [1, 2, 3]⟩))
    secureReader rfl).2.1 2
    (fun _ => ⟨fun k hk => by interval_cases k <;> exact ⟨rfl, rfl⟩, rfl⟩) (by decide) rfl
  h.elim fun r hr => ⟨r, hr.1, hr.2.1⟩

/-- C8, as the spec words it, fails.  The socket of `slicedReader` is secure
and is no `StreamSocket`; a hook is installed, the socket is not readable at
the first two polls and readable at the third.  The refill calls the hook
twice, polls three times, and then throws the `std::bad_cast` of line 45: it
issues no receive call. -/
theorem hook_loop_then_bad_cast :
    (nextImpl 3 (sampleEnvironment (.returned ⟨3, [1, 2, 3]⟩)) slicedReader).map
        (fun r => (r.result, r.trace))
      = some (.threw (.propagated bad_cast),
          [Event.poll 0 SELECT_READ, Event.async_callback 5 20 "socket (peer)",
           Event.poll 0 SELECT_READ, Event.async_callback 5 20 "socket (peer)",
           Event.poll 0 SELECT_READ]) := by
  decide

/-- C8, amended.  With a hook installed, if the zero-timeout readable poll
answers not-readable the first `N` times (the hook returning each time) and
readable at poll `N + 1`, the refill ends and its calls begin with poll, hook,
poll, hook, ..., poll, with `N` hook calls and `N + 1` polls; no further poll
or hook call follows, and every poll is `socket.poll(0, SELECT_READ)`.  When
line 45 passes (the socket is not secure, or it is a `StreamSocket`) the one
`receiveBytes` call comes right after these calls.  When the socket is secure
and no `StreamSocket`, the refill throws `std::bad_cast` after the loop and
issues no receive call. -/
theorem nextImpl_hook_loop (fuel N : Nat) (env : Environment)
    (s : ReadBufferFromPocoSocket) (hhook : s.async_callback = true)
    (hbusy : ∀ k, k < N → env.poll k 0 SELECT_READ = .returned false)
    (hyield : ∀ k, k < N → env.async_callback k s.socket.sockfd s.socket.receive_timeout
      s.socket_description = .returned ())
    (hready : env.poll N 0 SELECT_READ = .returned true) (hfuel : N < fuel) :
    ∃ r rest, nextImpl fuel env s = some r ∧
      r.trace = waitTrace s N ++ rest ∧
      (∀ ev ∈ rest, ev.isPoll = false ∧ ev.isCallback = false) ∧
      r.trace.countP Event.isCallback = N ∧
      r.trace.countP Event.isPoll = N + 1 ∧
      (∀ ev ∈ r.trace, ev.isPoll = true → ev = Event.poll 0 SELECT_READ) ∧
      (castSucceeds s = true →
        (∃ st rt rest2, rest = Event.receiveBytes 0 (narrowToInt s.memory.length) st rt :: rest2 ∧
          ∀ ev ∈ rest2, ev.isReceive = false) ∧
        r.trace.countP Event.isReceive = 1) ∧
      (castSucceeds s = false →
        rest = [] ∧ r.result = .threw (.propagated bad_cast)) := by
  have hwait : WaitEnds env s N := fun _ => ⟨fun k hk => ⟨hbusy k hk, hyield k hk⟩, hready⟩
  obtain ⟨rest0, htr, hrest⟩ := receiveAndComplete_trace env s (loopEvents s N)
  have hloop : loopEvents s N = waitTrace s N := by simp [loopEvents, hhook]
  rw [hloop, List.append_assoc] at htr
  have hrest0 : ∀ ev ∈ rest0,
      ev.isPoll = false ∧ ev.isCallback = false ∧ ev.isReceive = false := by
    intro ev hev
    rcases hrest with h | h
    · simp [h] at hev
    · simp [h] at hev; subst hev; exact ⟨rfl, rfl, rfl⟩
  have hcalls : ∀ ev ∈ receiveEvents s, ev.isPoll = false ∧ ev.isCallback = false := by
    intro ev hev
    obtain ⟨st, rt, h1, _⟩ := receiveEvents_mem s ev hev
    rw [h1]; exact ⟨rfl, rfl⟩
  have hrest2 : ∀ ev ∈ receiveEvents s ++ rest0, ev.isPoll = false ∧ ev.isCallback = false := by
    intro ev hev
    rcases List.mem_append.mp hev with h | h
    · exact hcalls ev h
    · exact ⟨(hrest0 ev h).1, (hrest0 ev h).2.1⟩
  have hP : (receiveEvents s ++ rest0).countP Event.isPoll = 0 :=
    List.countP_eq_zero.mpr (fun ev hev => by simp [(hrest2 ev hev).1])
  have hC : (receiveEvents s ++ rest0).countP Event.isCallback = 0 :=
    List.countP_eq_zero.mpr (fun ev hev => by simp [(hrest2 ev hev).2])
  have hR : rest0.countP Event.isReceive = 0 :=
    List.countP_eq_zero.mpr (fun ev hev => by simp [(hrest0 ev hev).2.2])
  refine ⟨_, receiveEvents s ++ rest0, nextImpl_of_waitEnds env s N fuel hwait hfuel, ?_,
    hrest2, ?_, ?_, ?_, ?_, ?_⟩
  · rw [hloop]; exact htr
  · simp only [hloop, htr, List.countP_append, waitTrace_countP_isCallback, hC, Nat.add_zero]
  · simp only [hloop, htr, List.countP_append, waitTrace_countP_isPoll, hP, Nat.add_zero]
  · intro ev hev hp
    rw [hloop, htr] at hev
    rcases List.mem_append.mp hev with h | h
    · rcases waitTrace_mem s N ev h with h1 | h1
      · rw [h1]; rfl
      · rw [h1] at hp; simp [loopCallback, Event.isPoll] at hp
    · rw [(hrest2 ev h).1] at hp; cases hp
  · intro hcast
    obtain ⟨st, rt, hev⟩ := receiveEvents_of_castSucceeds s hcast
    have hev2 : receiveEvents s = [Event.receiveBytes 0 (narrowToInt s.memory.length) st rt] := by
      simpa [ReadBufferFromPocoSocket.internal_buffer, Buffer.size] using hev
    refine ⟨⟨st, rt, rest0, by rw [hev2]; rfl, fun ev h => (hrest0 ev h).2.2⟩, ?_⟩
    rw [hloop, htr, List.countP_append, List.countP_append, waitTrace_countP_isReceive, hR,
      hev2]
    simp [Event.isReceive]
  · intro hcast
    have hans := receiveAnswer_of_castFails env s hcast
    refine ⟨?_, ?_⟩
    · have h1 : (receiveAndComplete env s (loopEvents s N)).trace = loopEvents s N := by
        simp [receiveAndComplete, guardedReceive_threw env s _ hans,
          receiveEvents_of_castFails s hcast]
      rw [hloop] at h1
      rw [h1] at htr
      have h2 := List.append_cancel_left (htr.symm.trans (List.append_nil _).symm)
      exact h2
    · simp [receiveAndComplete, guardedReceive_threw env s _ hans, translate, bad_cast]

/-- Witness of C8 amended: not readable twice, readable at the third poll, on
a secure stream socket. -/
theorem nextImpl_hook_loop_witness :
    ∃ r rest, nextImpl 3 (sampleEnvironment (.returned ⟨3, [1, 2, 3]⟩)) secureReader = some r ∧
      r.trace = waitTrace secureReader 2 ++ rest ∧
      r.trace.countP Event.isCallback = 2 ∧
      r.trace.countP Event.isPoll = 2 + 1 ∧
      r.trace.countP Event.isReceive = 1 :=
  have h := nextImpl_hook_loop 3 2 (sampleEnvironment (.returned ⟨3, [1, 2, 3]⟩)) secureReader
    rfl (fun k hk => by interval_cases k <;> rfl) (fun _ _ => rfl) rfl (by decide)
  h.elim fun r hr => hr.elim fun rest h2 =>
    ⟨r, rest, h2.1, h2.2.1, h2.2.2.2.1, h2.2.2.2.2.1, (h2.2.2.2.2.2.2.1 rfl).2⟩

/-- C9, as the spec words it, fails.  The capacity of `hugeReader` is
4294967300, which is `2 ^ 32 + 4`.  Its refill asks `receiveBytes` for 4 bytes,
the capacity converted to the `int length` of `receiveBytes`, not for the full
capacity. -/
theorem receive_length_narrowed :
    hugeReader.internal_buffer.size = 4294967300 ∧
    (nextImpl 1 (sampleEnvironment (.returned ⟨3, [1, 2, 3]⟩)) hugeReader).map
        (fun r => (r.result, r.trace))
      = some (.returned true, [Event.receiveBytes 0 4 10 20, Event.increment 7]) := by
  have hnarrow : narrowToInt 4294967300 = 4 := by decide
  have h := create_refill (sampleEnvironment (.returned ⟨3, [1, 2, 3]⟩))
    { sockfd := 5, secure := false, is_stream_socket := true, send_timeout := 10,
      receive_timeout := 20 } "peer" 4294967300 ⟨3, [1, 2, 3]⟩ rfl rfl (by decide)
  rw [hnarrow] at h
  unfold hugeReader
  exact ⟨create_capacity _ _ _, h⟩

/-- C9, amended.  A freshly constructed reader of capacity `C` has an empty
valid window, which fits the capacity.  If every receive returns at most the
number of bytes asked for, a refill of a reader whose window fits leaves a
reader whose window fits, with the same capacity, whatever way the refill ends.
Every `receiveBytes` call of the refill is made on the start of the internal
buffer and asks for the capacity converted to the `int length` of
`receiveBytes`, which is the full capacity when the capacity is below `2 ^ 31`.
After a refill that returns true the length of the valid window is the count
that receive returned.  When the loop of line 37 is left normally and the
receive returns a positive count, the refill does return true, after one
`receiveBytes` call, with a valid window of that length. -/
theorem window_fits_capacity :
    (∀ (socket : Socket) (peer : String) (C : Nat),
      WindowFits (ReadBufferFromPocoSocket.create socket peer C) ∧
      (ReadBufferFromPocoSocket.create socket peer C).working_buffer.size = 0 ∧
      (ReadBufferFromPocoSocket.create socket peer C).internal_buffer.size = C) ∧
    (∀ (fuel : Nat) (env : Environment) (s : ReadBufferFromPocoSocket),
      ReceiveBounded env → WindowFits s →
      (∀ r, nextImpl fuel env s = some r →
        WindowFits r.state ∧
        r.state.internal_buffer.size = s.internal_buffer.size ∧
        (∀ b l st rt, Event.receiveBytes b l st rt ∈ r.trace →
          b = s.internal_buffer.begin_pos ∧ l = narrowToInt s.internal_buffer.size ∧
          (s.internal_buffer.size < 2 ^ 31 → l = (s.internal_buffer.size : Int))) ∧
        (r.result = .returned true →
          ∃ received, receiveAnswer env s = .returned received ∧
            (r.state.working_buffer.size : Int) = received.count)) ∧
      (∀ N received, WaitEnds env s N → N < fuel →
        receiveAnswer env s = .returned received → 0 < received.count →
        ∃ r, nextImpl fuel env s = some r ∧ r.result = .returned true ∧
          (r.state.working_buffer.size : Int) = received.count ∧
          received.count ≤ (r.state.internal_buffer.size : Int) ∧
          r.trace.countP Event.isReceive = 1)) := by
  constructor
  · intro socket peer C
    simp [WindowFits, ReadBufferFromPocoSocket.create, Buffer.size,
      ReadBufferFromPocoSocket.internal_buffer]
  · intro fuel env s hbound hfits
    have hle : ∀ received, receiveAnswer env s = .returned received →
        received.count ≤ (s.memory.length : Int) := by
      intro received h
      unfold receiveAnswer at h
      split at h
      · cases h
      · have h1 := hbound _ _ _ received h
        have h2 := narrowToInt_le s.internal_buffer.size
        simp only [receiveCall, ReadBufferFromPocoSocket.internal_buffer, Buffer.size,
          Nat.sub_zero] at h1 h2
        omega
    constructor
    · intro r hr
      unfold nextImpl at hr
      split at hr
      · cases hr
      · rename_i e tr hw
        cases hr
        refine ⟨hfits, rfl, ?_, ?_⟩
        · intro b l st rt hmem
          rcases waitLoop_trace env s fuel 0 _ _ hw _ hmem with h | h <;>
            simp [loopPoll, loopCallback] at h
        · intro h; simp at h
      · rename_i tr hw
        cases hr
        have hevents : ∀ b l st rt,
            Event.receiveBytes b l st rt ∈ (receiveAndComplete env s tr).trace →
            b = s.internal_buffer.begin_pos ∧ l = narrowToInt s.internal_buffer.size ∧
            (s.internal_buffer.size < 2 ^ 31 → l = (s.internal_buffer.size : Int)) := by
          intro b l st rt hmem
          obtain ⟨rest, htr, hrest⟩ := receiveAndComplete_trace env s tr
          rw [htr] at hmem
          simp only [List.mem_append] at hmem
          rcases hmem with (hmem | hmem) | hmem
          · rcases waitLoop_trace env s fuel 0 _ _ hw _ hmem with h | h <;>
              simp [loopPoll, loopCallback] at h
          · obtain ⟨st1, rt1, h1, _⟩ := receiveEvents_mem s _ hmem
            cases h1
            exact ⟨rfl, rfl, fun h => narrowToInt_small _ h⟩
          · rcases hrest with h | h <;> simp [h] at hmem
        refine ⟨?_, ?_, hevents, ?_⟩
        · cases h : receiveAnswer env s with
          | threw e =>
            simpa [receiveAndComplete, guardedReceive_threw env s e h] using hfits
          | returned received =>
            have hle1 := hle received h
            simp only [receiveAndComplete, guardedReceive_returned env s received h, complete]
            split
            · simpa [WindowFits, ReadBufferFromPocoSocket.internal_buffer, Buffer.size,
                store_length] using hfits
            · split
              · simp only [WindowFits, ReadBufferFromPocoSocket.internal_buffer, Buffer.size,
                  Buffer.resize, store_length, Nat.sub_zero, Nat.add_sub_cancel_left]
                omega
              · simpa [WindowFits, ReadBufferFromPocoSocket.internal_buffer, Buffer.size,
                  store_length] using hfits
        · cases h : receiveAnswer env s with
          | threw e => simp [receiveAndComplete, guardedReceive_threw env s e h]
          | returned received =>
            simp only [receiveAndComplete, guardedReceive_returned env s received h, complete]
            split
            · simp [ReadBufferFromPocoSocket.internal_buffer, Buffer.size, store_length]
            · split <;>
                simp [ReadBufferFromPocoSocket.internal_buffer, Buffer.size, store_length]
        · intro hres
          cases h : receiveAnswer env s with
          | threw e => simp [receiveAndComplete, guardedReceive_threw env s e h] at hres
          | returned received =>
            refine ⟨received, rfl, ?_⟩
            simp only [receiveAndComplete, guardedReceive_returned env s received h,
              complete] at hres ⊢
            split at hres
            · simp at hres
            · rename_i hneg
              split at hres
              · rw [if_neg hneg, if_pos (by assumption)]
                simp only [Buffer.resize, Buffer.size, Nat.add_sub_cancel_left]
                omega
              · simp at hres
    · intro N received hwait hfuel hans hpos
      have hle1 := hle received hans
      have h1 : ¬ received.count < 0 := by omega
      have h2 : received.count ≠ 0 := by omega
      have hcast : castSucceeds s = true := by
        cases hc : castSucceeds s with
        | true => rfl
        | false => rw [receiveAnswer_of_castFails env s hc] at hans; cases hans
      obtain ⟨st, rt, hev⟩ := receiveEvents_of_castSucceeds s hcast
      have hloopR : (loopEvents s N).countP Event.isReceive = 0 := by
        unfold loopEvents
        split
        · exact waitTrace_countP_isReceive s N
        · rfl
      refine ⟨_, nextImpl_of_waitEnds env s N fuel hwait hfuel, ?_, ?_, ?_, ?_⟩
      · simp [receiveAndComplete, guardedReceive_returned env s _ hans, complete, h1, h2]
      · simp only [receiveAndComplete, guardedReceive_returned env s _ hans, complete, h1, h2,
          if_false, ne_eq, not_false_eq_true, if_true, Buffer.resize, Buffer.size,
          Nat.add_sub_cancel_left]
        omega
      · simp only [receiveAndComplete, guardedReceive_returned env s _ hans, complete, h1, h2,
          if_false, ne_eq, not_false_eq_true, if_true,
          ReadBufferFromPocoSocket.internal_buffer, Buffer.size, store_length, Nat.sub_zero]
        exact hle1
      · simp only [receiveAndComplete, guardedReceive_returned env s _ hans, complete, h1, h2,
          if_false, ne_eq, not_false_eq_true, if_true, List.countP_append, hloopR, hev]
        simp [Event.isReceive]

/-- Witness of C9 amended: a refill of a fresh reader of capacity 4 that asks
for 4 bytes and receives 3. -/
theorem window_fits_capacity_witness :
    ∃ r, nextImpl 3 boundedEnvironment secureReader = some r ∧ r.result = .returned true ∧
      (r.state.working_buffer.size : Int) = 3 ∧
      (3 : Int) ≤ (r.state.internal_buffer.size : Int) ∧
      r.trace.countP Event.isReceive = 1 :=
  (window_fits_capacity.2 3 boundedEnvironment secureReader
    (fun length _ _ r h => by
      cases h
      exact min_le_right 3 length)
    (by unfold WindowFits; decide)).2 2 ⟨3, [1, 2, 3]⟩
    (fun _ => ⟨fun k hk => by interval_cases k <;> exact ⟨rfl, rfl⟩, rfl⟩) (by decide)
    (by decide) (by decide)

/-- C10.  A refill that ends by returning, true or false, has incremented the
timing counter exactly once, by the stopwatch reading; a refill that ends by
throwing has not incremented it.  When the loop of line 37 is left normally, a
receive that returns a count of zero or more makes the refill return, and a
receive that throws or returns a negative count makes the refill throw. -/
theorem nextImpl_timing_counter (fuel : Nat) (env : Environment)
    (s : ReadBufferFromPocoSocket) :
    (∀ r, nextImpl fuel env s = some r →
      (∀ b, r.result = .returned b →
        r.trace.filter Event.isIncrement = [Event.increment env.elapsedMicroseconds]) ∧
      (∀ e, r.result = .threw e → r.trace.filter Event.isIncrement = [])) ∧
    (∀ N received, WaitEnds env s N → N < fuel →
      receiveAnswer env s = .returned received → 0 ≤ received.count →
      ∃ r b, nextImpl fuel env s = some r ∧ r.result = .returned b) ∧
    (∀ N, WaitEnds env s N → N < fuel →
      ((∃ e, receiveAnswer env s = .threw e) ∨
        (∃ received, receiveAnswer env s = .returned received ∧ received.count < 0)) →
      ∃ r e, nextImpl fuel env s = some r ∧ r.result = .threw e) := by
  have hloopfree : ∀ (tr : List Event), (∀ ev ∈ tr, ev = loopPoll ∨ ev = loopCallback s) →
      tr.filter Event.isIncrement = [] := by
    intro tr h
    rw [List.filter_eq_nil_iff]
    intro ev hev
    rcases h ev hev with h1 | h1 <;> simp [h1, loopPoll, loopCallback, Event.isIncrement]
  have hcall : (receiveEvents s).filter Event.isIncrement = [] := by
    rw [List.filter_eq_nil_iff]
    intro ev hev
    obtain ⟨st, rt, h1, _⟩ := receiveEvents_mem s ev hev
    simp [h1, Event.isIncrement]
  refine ⟨?_, ?_, ?_⟩
  · intro r hr
    unfold nextImpl at hr
    split at hr
    · cases hr
    · rename_i e tr hw
      cases hr
      refine ⟨fun b hb => by simp at hb, fun _ _ => ?_⟩
      exact hloopfree tr (waitLoop_trace env s fuel 0 _ _ hw)
    · rename_i tr hw
      cases hr
      have h0 := hloopfree tr (waitLoop_trace env s fuel 0 _ _ hw)
      cases h : receiveAnswer env s with
      | threw e =>
        simp [receiveAndComplete, guardedReceive_threw env s e h, List.filter_append, h0,
          hcall]
      | returned received =>
        simp only [receiveAndComplete, guardedReceive_returned env s received h, complete]
        split
        · simp [List.filter_append, h0, hcall]
        · split <;> simp [List.filter_append, h0, hcall, Event.isIncrement]
  · intro N received hwait hfuel hrecv hcount
    have hneg : ¬ received.count < 0 := by omega
    by_cases hz : received.count = 0
    · exact ⟨_, false, nextImpl_of_waitEnds env s N fuel hwait hfuel, by
        simp [receiveAndComplete, guardedReceive_returned env s _ hrecv, complete, hz]⟩
    · exact ⟨_, true, nextImpl_of_waitEnds env s N fuel hwait hfuel, by
        simp [receiveAndComplete, guardedReceive_returned env s _ hrecv, complete, hz, hneg]⟩
  · intro N hwait hfuel hfault
    rcases hfault with ⟨e, he⟩ | ⟨received, hrecv, hneg⟩
    · exact ⟨_, translate s e, nextImpl_of_waitEnds env s N fuel hwait hfuel, by
        simp [receiveAndComplete, guardedReceive_threw env s _ he]⟩
    · exact ⟨_, _, nextImpl_of_waitEnds env s N fuel hwait hfuel, by
        simp [receiveAndComplete, guardedReceive_returned env s _ hrecv, complete, hneg]; rfl⟩

/-- Witness of C10: a refill that receives 3 bytes increments the counter once. -/
theorem nextImpl_timing_counter_witness :
    ∃ r b, nextImpl 3 (sampleEnvironment (.returned ⟨3, [1, 2, 3]⟩)) secureReader = some r ∧
      r.result = .returned b :=
  (nextImpl_timing_counter 3 (sampleEnvironment (.returned ⟨3, [1, 2, 3]⟩)) secureReader).2.1
    2 ⟨3, [1, 2, 3]⟩ (fun _ => ⟨fun k hk => by interval_cases k <;> exact ⟨rfl, rfl⟩, rfl⟩)
    (by decide) rfl (by decide)

end DB
